import Mathlib

/-!
# Domain-Search: advanced query construction and result normalization

Shallow embedding of the query-construction module (`server/queryBuilder.ts`)
and of the result-mapping portion of the search execution code
(`server/routes.ts`, `performSearch` / `performAdvancedSearch`) of the
Domain-Search repository, together with theorems settling the specification
claims about them.

JavaScript strings are modelled as Lean `String`; optional (possibly
`undefined`) values as `Option String`; the JS `||` defaulting idiom, which
replaces both `undefined` and the empty string, is modelled explicitly.
-/

namespace DomainSearch

/-- Whitespace test used by `trim` and `split` on the relevant characters. -/
def isWsChar (c : Char) : Bool := c == ' ' || c == '\t' || c == '\n' || c == '\r'

/-- Model of JavaScript `String.prototype.trim`: strip leading and trailing
whitespace. -/
def jsTrim (s : String) : String :=
  String.mk (((s.data.dropWhile isWsChar).reverse.dropWhile isWsChar).reverse)

/-- Helper for `splitTokens`: walk the characters, `acc` holding the current
token reversed. Runs of whitespace separate tokens; no empty token is
emitted. -/
def splitWsChars : List Char → List Char → List String
  | [], acc => if acc.isEmpty then [] else [String.mk acc.reverse]
  | c :: cs, acc =>
    if isWsChar c then
      (if acc.isEmpty then [] else [String.mk acc.reverse]) ++ splitWsChars cs []
    else
      splitWsChars cs (c :: acc)

/-- Model of the source idiom `s.trim().split(/\s+/)`: tokens of `s`,
split on runs of whitespace, leading/trailing whitespace discarded.
(The source only applies it to strings whose trim is non-empty, where this
agrees exactly with the JavaScript semantics.) -/
def splitTokens (s : String) : List String := splitWsChars (jsTrim s).data []

/-- Model of JavaScript `Array.prototype.join(sep)`. -/
def joinWith (sep : String) : List String → String
  | [] => ""
  | [x] => x
  | x :: y :: xs => x ++ sep ++ joinWith sep (y :: xs)

/-- Model of the JS `v || d` defaulting idiom on an optional string: both an
absent value and the empty string (the falsy strings) are replaced by `d`. -/
def jsOr (v : Option String) (d : String) : String :=
  match v with
  | none => d
  | some s => if s = "" then d else s

/-- Model of JavaScript `s.charAt(i)`: the character at index `i` as a
one-character string, or the empty string when out of range. -/
def jsCharAt (s : String) (i : Nat) : String :=
  match s.data.get? i with
  | some c => String.mk [c]
  | none => ""

/-- Truthiness of the guard `field?.trim()` used by every optional-field
block in `buildAdvancedQuery`: present and not blank after trimming. -/
def hasContent : Option String → Bool
  | none => false
  | some s => jsTrim s != ""

/-- Model of `AdvancedSearchQuery` as produced by `advancedSearchQuerySchema`
(`shared/schema.ts`): `domain` required; the six operator fields and
`language` optional; `dateRange` defaulted to `"any"` and `region` to
`"us"` by the schema. -/
structure AdvancedSearchQuery where
  domain : String
  includeTerms : Option String := none
  excludeTerms : Option String := none
  exactPhrase : Option String := none
  anyOfTerms : Option String := none
  allOfTerms : Option String := none
  fileType : Option String := none
  dateRange : String := "any"
  language : Option String := none
  region : String := "us"
deriving DecidableEq

/-- Model of `SearchQueryComponents` (`server/queryBuilder.ts`): the compiled query
string, the operator labels, and the human-readable description. -/
structure SearchQueryComponents where
  query : String
  operators : List String
  description : String
deriving DecidableEq

/-- The `allOfTerms` block of `buildAdvancedQuery`: one `+token` query
fragment per token, one `ALL OF:` label, one description fragment; nothing
when the field is absent or blank. -/
def allOfBlock : Option String → List String × List String × List String
  | none => ([], [], [])
  | some s =>
    if jsTrim s != "" then
      ((splitTokens s).map (fun t => "+" ++ t),
       ["ALL OF: " ++ s],
       ["must include all: " ++ s])
    else ([], [], [])

/-- The `anyOfTerms` block: a single parenthesized `OR` disjunction of the
tokens. -/
def anyOfBlock : Option String → List String × List String × List String
  | none => ([], [], [])
  | some s =>
    if jsTrim s != "" then
      (["(" ++ joinWith " OR " (splitTokens s) ++ ")"],
       ["ANY OF: " ++ s],
       ["any of: " ++ s])
    else ([], [], [])

/-- The `exactPhrase` block: the trimmed phrase in double quotes as the
query fragment; the label and description quote the untrimmed input, as in
the source. -/
def exactPhraseBlock : Option String → List String × List String × List String
  | none => ([], [], [])
  | some s =>
    if jsTrim s != "" then
      (["\"" ++ jsTrim s ++ "\""],
       ["EXACT: \"" ++ s ++ "\""],
       ["exact phrase: \"" ++ s ++ "\""])
    else ([], [], [])

/-- The `includeTerms` block: tokens appended bare. -/
def includeBlock : Option String → List String × List String × List String
  | none => ([], [], [])
  | some s =>
    if jsTrim s != "" then
      (splitTokens s, ["INCLUDE: " ++ s], ["include: " ++ s])
    else ([], [], [])

/-- The `excludeTerms` block: one `-token` per token. -/
def excludeBlock : Option String → List String × List String × List String
  | none => ([], [], [])
  | some s =>
    if jsTrim s != "" then
      ((splitTokens s).map (fun t => "-" ++ t),
       ["EXCLUDE: " ++ s],
       ["exclude: " ++ s])
    else ([], [], [])

/-- The `fileType` block: a single `filetype:` fragment with the trimmed
value; label and description use the untrimmed input, as in the source. -/
def fileTypeBlock : Option String → List String × List String × List String
  | none => ([], [], [])
  | some s =>
    if jsTrim s != "" then
      (["filetype:" ++ jsTrim s],
       ["FILETYPE: " ++ s],
       ["file type: " ++ s])
    else ([], [], [])

/-- Model of `buildAdvancedQuery` (`server/queryBuilder.ts:24`): pushes the mandatory
site restriction, then each optional field's fragments in the source's
fixed order, and joins query parts with spaces and descriptions with
commas. -/
def buildAdvancedQuery (searchParams : AdvancedSearchQuery) : SearchQueryComponents :=
  let siteBlock : List String × List String × List String :=
    (["site:" ++ searchParams.domain],
     ["site:" ++ searchParams.domain],
     ["domain: " ++ searchParams.domain])
  let b1 := allOfBlock searchParams.allOfTerms
  let b2 := anyOfBlock searchParams.anyOfTerms
  let b3 := exactPhraseBlock searchParams.exactPhrase
  let b4 := includeBlock searchParams.includeTerms
  let b5 := excludeBlock searchParams.excludeTerms
  let b6 := fileTypeBlock searchParams.fileType
  let queryParts := siteBlock.1 ++ (b1.1 ++ (b2.1 ++ (b3.1 ++ (b4.1 ++ (b5.1 ++ b6.1)))))
  let operators := siteBlock.2.1 ++ (b1.2.1 ++ (b2.2.1 ++ (b3.2.1 ++ (b4.2.1 ++ (b5.2.1 ++ b6.2.1)))))
  let descriptions := siteBlock.2.2 ++ (b1.2.2 ++ (b2.2.2 ++ (b3.2.2 ++ (b4.2.2 ++ (b5.2.2 ++ b6.2.2)))))
  { query := joinWith " " queryParts
    operators := operators
    description := joinWith ", " descriptions }

/-- Model of `getDateFilterParams` (`server/queryBuilder.ts:100`). The source reads
the clock (`new Date()`) to compute a `startDate` that is never used; the
clock reading is made an explicit parameter `nowMs` (milliseconds) here so
that independence from it can be stated. The result models the returned
object: `none` for `{}` (time-filter key omitted), `some v` for
`{tbs: v}`. -/
def getDateFilterParams (nowMs : Int) (dateRange : Option String) : Option String :=
  match dateRange with
  | none => none
  | some dr =>
    if dr = "" || dr = "any" then none
    else if dr = "day" then
      let startDate := nowMs - 24 * 60 * 60 * 1000
      let _ := startDate
      some ("qdr:" ++ jsCharAt dr 0)
    else if dr = "week" then
      let startDate := nowMs - 7 * 24 * 60 * 60 * 1000
      let _ := startDate
      some ("qdr:" ++ jsCharAt dr 0)
    else if dr = "month" then
      let startDate := nowMs - 30 * 24 * 60 * 60 * 1000
      let _ := startDate
      some ("qdr:" ++ jsCharAt dr 0)
    else if dr = "year" then
      let startDate := nowMs - 365 * 24 * 60 * 60 * 1000
      let _ := startDate
      some ("qdr:" ++ jsCharAt dr 0)
    else none

/-- The `{gl, hl}` object returned by `getLocalizationParams`. -/
structure LocalizationParams where
  gl : String
  hl : String
deriving DecidableEq

/-- Model of `getLocalizationParams` (`server/queryBuilder.ts:133`):
`gl = region || "us"`, `hl = language || "en"`. -/
def getLocalizationParams (language region : Option String) : LocalizationParams :=
  { gl := jsOr region "us", hl := jsOr language "en" }

/-- A raw provider (Serper) organic result record: an object with the three
duck-typed optional string fields the code reads. -/
structure RawRecord where
  title : Option String := none
  link : Option String := none
  snippet : Option String := none
deriving DecidableEq

/-- The stable result shape produced by the transformation. -/
structure NormalizedResult where
  title : String
  url : String
  snippet : String
deriving DecidableEq

/-- The per-record transformation of `performSearch` / `performAdvancedSearch`
(`server/routes.ts:297`): `title: result.title || "No title"`,
`url: result.link || ""`, `snippet: result.snippet || "No snippet available"`. -/
def normalizeRecord (r : RawRecord) : NormalizedResult :=
  { title := jsOr r.title "No title"
    url := jsOr r.link ""
    snippet := jsOr r.snippet "No snippet available" }

/-- Model of the result normalization: the `data.organic?.map(...)` transformation of
`server/routes.ts:296-301` over the upstream array. An array element may be
`null` (modelled `none`), in which case the property access `result.title`
raises a `TypeError`, modelled as `Except.error`; a non-null record is
transformed by `normalizeRecord` and always kept. -/
def normalizeResults : List (Option RawRecord) → Except String (List NormalizedResult)
  | [] => Except.ok []
  | none :: _ => Except.error "TypeError: cannot read properties of null"
  | some r :: rest =>
    match normalizeResults rest with
    | Except.ok l => Except.ok (normalizeRecord r :: l)
    | Except.error e => Except.error e

/-- Decidable equality of `Except` values, for evaluating
`normalizeResults` on concrete inputs. -/
instance {ε α : Type} [DecidableEq ε] [DecidableEq α] : DecidableEq (Except ε α) := fun a b =>
  match a, b with
  | Except.ok x, Except.ok y =>
    if h : x = y then isTrue (by rw [h]) else isFalse (by intro he; cases he; exact h rfl)
  | Except.ok _, Except.error _ => isFalse (by intro h; cases h)
  | Except.error _, Except.ok _ => isFalse (by intro h; cases h)
  | Except.error x, Except.error y =>
    if h : x = y then isTrue (by rw [h]) else isFalse (by intro he; cases he; exact h rfl)

/-- The raw record with a title and a link, from the spec's result-filtering
scenario. -/
def rawA : RawRecord := { title := some "A", link := some "https://x.test" }

/-- The raw record with a title but no link, from the spec's
result-filtering scenario. -/
def rawB : RawRecord := { title := some "B" }

/-! ## Helper lemmas -/

/-- Joining a non-empty list of fragments yields a string that starts with
the first fragment. -/
theorem joinWith_cons_decomp (sep a : String) (l : List String) :
    ∃ r, joinWith sep (a :: l) = a ++ r := by
  cases l with
  | nil => exact ⟨"", by simp [joinWith]⟩
  | cons x xs => exact ⟨sep ++ joinWith sep (x :: xs), by simp [joinWith, String.append_assoc]⟩

/-- The `allOfTerms` block contributes exactly one operator label when the
field has content, none otherwise. -/
theorem allOfBlock_ops_length (o : Option String) :
    (allOfBlock o).2.1.length = if hasContent o then 1 else 0 := by
  cases o with
  | none => simp [allOfBlock, hasContent]
  | some s => simp only [allOfBlock, hasContent]; split <;> simp

/-- The `anyOfTerms` block contributes exactly one operator label when the
field has content, none otherwise. -/
theorem anyOfBlock_ops_length (o : Option String) :
    (anyOfBlock o).2.1.length = if hasContent o then 1 else 0 := by
  cases o with
  | none => simp [anyOfBlock, hasContent]
  | some s => simp only [anyOfBlock, hasContent]; split <;> simp

/-- The `exactPhrase` block contributes exactly one operator label when the
field has content, none otherwise. -/
theorem exactPhraseBlock_ops_length (o : Option String) :
    (exactPhraseBlock o).2.1.length = if hasContent o then 1 else 0 := by
  cases o with
  | none => simp [exactPhraseBlock, hasContent]
  | some s => simp only [exactPhraseBlock, hasContent]; split <;> simp

/-- The `includeTerms` block contributes exactly one operator label when the
field has content, none otherwise. -/
theorem includeBlock_ops_length (o : Option String) :
    (includeBlock o).2.1.length = if hasContent o then 1 else 0 := by
  cases o with
  | none => simp [includeBlock, hasContent]
  | some s => simp only [includeBlock, hasContent]; split <;> simp

/-- The `excludeTerms` block contributes exactly one operator label when the
field has content, none otherwise. -/
theorem excludeBlock_ops_length (o : Option String) :
    (excludeBlock o).2.1.length = if hasContent o then 1 else 0 := by
  cases o with
  | none => simp [excludeBlock, hasContent]
  | some s => simp only [excludeBlock, hasContent]; split <;> simp

/-- The `fileType` block contributes exactly one operator label when the
field has content, none otherwise. -/
theorem fileTypeBlock_ops_length (o : Option String) :
    (fileTypeBlock o).2.1.length = if hasContent o then 1 else 0 := by
  cases o with
  | none => simp [fileTypeBlock, hasContent]
  | some s => simp only [fileTypeBlock, hasContent]; split <;> simp

/-- On a batch containing no null records, the transformation succeeds and
maps every record through `normalizeRecord`, keeping all of them. -/
theorem normalizeResults_map_some (rs : List RawRecord) :
    normalizeResults (rs.map some) = Except.ok (rs.map normalizeRecord) := by
  induction rs with
  | nil => rfl
  | cons r rest ih => simp [normalizeResults, ih, List.map]

/-! ## Claim theorems -/

/-- Claim C1, counterexample: on the spec's own example input
`[(title A, link https x.test), (title B, no link)]` the code returns TWO
normalized results, keeping the link-less record for B with an empty url —
it does not drop it, so the output is not exactly one record. -/
theorem normalizeResults_keeps_linkless_record :
    normalizeResults [some rawA, some rawB] =
      Except.ok [{ title := "A", url := "https://x.test", snippet := "No snippet available" },
                 { title := "B", url := "", snippet := "No snippet available" }] ∧
    (Except.ok [{ title := "A", url := "https://x.test", snippet := "No snippet available" },
                { title := "B", url := "", snippet := "No snippet available" }]
       : Except String (List NormalizedResult)) ≠
      Except.ok [{ title := "A", url := "https://x.test", snippet := "No snippet available" }] :=
  ⟨rfl, by decide⟩

/-- Claim C1, amended: a record whose link-like field is empty or absent is
NOT dropped: every non-null record of the batch is kept, a missing or empty
link producing `url = ""` (no placeholder URL is fabricated, but the record
stays); on the example input the output is the two records for A and B. -/
theorem normalizeResults_amended (rs : List RawRecord) (r : RawRecord)
    (h : r.link = none ∨ r.link = some "") :
    normalizeResults (rs.map some) = Except.ok (rs.map normalizeRecord) ∧
    (normalizeRecord r).url = "" ∧
    normalizeResults [some rawA, some rawB] =
      Except.ok [normalizeRecord rawA, normalizeRecord rawB] := by
  refine ⟨normalizeResults_map_some rs, ?_, rfl⟩
  rcases h with h | h <;> simp [normalizeRecord, jsOr, h]

/-- Claim C1, witness: the amended theorem applied to the singleton batch
containing the link-less record B. -/
theorem normalizeResults_amended_witness :
    normalizeResults ([rawB].map some) = Except.ok ([rawB].map normalizeRecord) ∧
    (normalizeRecord rawB).url = "" ∧
    normalizeResults [some rawA, some rawB] =
      Except.ok [normalizeRecord rawA, normalizeRecord rawB] :=
  normalizeResults_amended [rawB] rawB (Or.inl rfl)

/-- Claim C2, counterexample: a null record in the batch makes the
transformation throw (a TypeError from the property access), and a
non-null record lacking every field is kept with defaults rather than
silently excluded. -/
theorem normalizeResults_null_throws :
    normalizeResults [none] = Except.error "TypeError: cannot read properties of null" ∧
    normalizeResults [some { title := none, link := none, snippet := none }] =
      Except.ok [{ title := "No title", url := "", snippet := "No snippet available" }] :=
  ⟨rfl, rfl⟩

/-- Claim C2, amended: the transformation never throws on a batch of
non-null records, however malformed (missing fields get defaults), and no
record is excluded — the output has one normalized result per input
record. A null record, by contrast, aborts the whole batch with an error. -/
theorem normalizeResults_nonnull_total (rs : List RawRecord) :
    normalizeResults (rs.map some) = Except.ok (rs.map normalizeRecord) ∧
    (rs.map normalizeRecord).length = rs.length :=
  ⟨normalizeResults_map_some rs, by simp⟩

/-- Claim C3: for every input, the compiled query is the space-join of the
mandatory `site:` fragment followed by the fragments of the present fields
in the fixed order allOfTerms (requiredTerms), anyOfTerms, exactPhrase,
includeTerms, excludeTerms, fileType; in particular the query string always
starts with `site:` and the domain. -/
theorem buildAdvancedQuery_fragment_order (p : AdvancedSearchQuery) :
    (buildAdvancedQuery p).query =
      joinWith " " (("site:" ++ p.domain) ::
        ((allOfBlock p.allOfTerms).1 ++ ((anyOfBlock p.anyOfTerms).1 ++
          ((exactPhraseBlock p.exactPhrase).1 ++ ((includeBlock p.includeTerms).1 ++
            ((excludeBlock p.excludeTerms).1 ++ (fileTypeBlock p.fileType).1)))))) ∧
    ∃ rest : String, (buildAdvancedQuery p).query = ("site:" ++ p.domain) ++ rest := by
  refine ⟨rfl, ?_⟩
  exact joinWith_cons_decomp " " ("site:" ++ p.domain) _

/-- Claim C4: the operators list has one entry per input field that
produced a fragment, the mandatory site restriction included; and the
spec's end-to-end scenario compiles to the expected query with
`operators.length = 4`. -/
theorem buildAdvancedQuery_operators_length (p : AdvancedSearchQuery) :
    (buildAdvancedQuery p).operators.length =
      1 + ((if hasContent p.allOfTerms then 1 else 0) +
        ((if hasContent p.anyOfTerms then 1 else 0) +
          ((if hasContent p.exactPhrase then 1 else 0) +
            ((if hasContent p.includeTerms then 1 else 0) +
              ((if hasContent p.excludeTerms then 1 else 0) +
                (if hasContent p.fileType then 1 else 0)))))) ∧
    buildAdvancedQuery { domain := "docs.example.com", allOfTerms := some "migration guide",
                         excludeTerms := some "beta", fileType := some "pdf" } =
      { query := "site:docs.example.com +migration +guide -beta filetype:pdf",
        operators := ["site:docs.example.com", "ALL OF: migration guide",
                      "EXCLUDE: beta", "FILETYPE: pdf"],
        description := "domain: docs.example.com, must include all: migration guide, exclude: beta, file type: pdf" } := by
  constructor
  · unfold buildAdvancedQuery
    simp only [List.length_append, List.length_singleton,
      allOfBlock_ops_length, anyOfBlock_ops_length, exactPhraseBlock_ops_length,
      includeBlock_ops_length, excludeBlock_ops_length, fileTypeBlock_ops_length]
  · rfl

/-- Claim C5: setting any one of the optional fields to a whitespace-only
string yields exactly the CompiledQuery obtained with that field absent
entirely. -/
theorem buildAdvancedQuery_blank_equiv_absent (p : AdvancedSearchQuery) (s : String)
    (h : jsTrim s = "") :
    buildAdvancedQuery { p with allOfTerms := some s } = buildAdvancedQuery { p with allOfTerms := none } ∧
    buildAdvancedQuery { p with anyOfTerms := some s } = buildAdvancedQuery { p with anyOfTerms := none } ∧
    buildAdvancedQuery { p with exactPhrase := some s } = buildAdvancedQuery { p with exactPhrase := none } ∧
    buildAdvancedQuery { p with includeTerms := some s } = buildAdvancedQuery { p with includeTerms := none } ∧
    buildAdvancedQuery { p with excludeTerms := some s } = buildAdvancedQuery { p with excludeTerms := none } ∧
    buildAdvancedQuery { p with fileType := some s } = buildAdvancedQuery { p with fileType := none } ∧
    buildAdvancedQuery { p with language := some s } = buildAdvancedQuery { p with language := none } := by
  refine ⟨?_, ?_, ?_, ?_, ?_, ?_, ?_⟩ <;>
    simp [buildAdvancedQuery, allOfBlock, anyOfBlock, exactPhraseBlock, includeBlock,
      excludeBlock, fileTypeBlock, h]

/-- Claim C5, witness: three spaces in `allOfTerms` (requiredTerms) give
the same CompiledQuery as the absent field. -/
theorem buildAdvancedQuery_blank_equiv_absent_witness :
    jsTrim "   " = "" ∧
    buildAdvancedQuery { domain := "example.com", allOfTerms := some "   " } =
      buildAdvancedQuery { domain := "example.com" } :=
  ⟨by decide, (buildAdvancedQuery_blank_equiv_absent { domain := "example.com" } "   " (by decide)).1⟩

/-- Claim C6: with domain `example.com` and every optional field absent,
the compiled query is exactly `site:example.com` and the operators list is
the single site restriction. -/
theorem buildAdvancedQuery_absence_transparency :
    (buildAdvancedQuery { domain := "example.com" }).query = "site:example.com" ∧
    (buildAdvancedQuery { domain := "example.com" }).operators = ["site:example.com"] :=
  ⟨rfl, rfl⟩

/-- Claim C7, counterexample: `mapDateRange "week"` yields the parameter
value `qdr:w`, whose first character is `q`, not `w` — the value does not
start with `w` as the claim's example asserts. -/
theorem getDateFilterParams_week_not_prefix_w :
    getDateFilterParams 0 (some "week") = some "qdr:w" ∧
    ("qdr:w").data.head? = some 'q' ∧ ('q' : Char) ≠ 'w' :=
  ⟨rfl, rfl, by decide⟩

/-- Claim C7, amended: `any`, the empty string, absent, and every
unrecognized value map to an empty parameter set (key omitted); each of
`day`, `week`, `month`, `year` maps to a single time-token parameter whose
value is `qdr:` followed by the first character of the enum value — it
contains (indeed ends with) that letter, but starts with `qdr:`, not with
the letter; `week` in particular yields the value `qdr:w`. -/
theorem getDateFilterParams_amended (t : Int) (dr : String)
    (h0 : dr ≠ "") (h1 : dr ≠ "any") (h2 : dr ≠ "day") (h3 : dr ≠ "week")
    (h4 : dr ≠ "month") (h5 : dr ≠ "year") :
    getDateFilterParams t none = none ∧
    getDateFilterParams t (some "any") = none ∧
    getDateFilterParams t (some "") = none ∧
    getDateFilterParams t (some dr) = none ∧
    getDateFilterParams t (some "day") = some ("qdr:" ++ jsCharAt "day" 0) ∧
    getDateFilterParams t (some "week") = some ("qdr:" ++ jsCharAt "week" 0) ∧
    getDateFilterParams t (some "month") = some ("qdr:" ++ jsCharAt "month" 0) ∧
    getDateFilterParams t (some "year") = some ("qdr:" ++ jsCharAt "year" 0) ∧
    getDateFilterParams t (some "week") = some "qdr:w" := by
  refine ⟨rfl, rfl, rfl, ?_, rfl, rfl, rfl, rfl, rfl⟩
  simp [getDateFilterParams, h0, h1, h2, h3, h4, h5]

/-- Claim C7, witness: the amended theorem at time 0 and unrecognized value
`fortnight`. -/
theorem getDateFilterParams_amended_witness :
    getDateFilterParams 0 (some "fortnight") = none ∧
    getDateFilterParams 0 (some "week") = some "qdr:w" :=
  ⟨(getDateFilterParams_amended 0 "fortnight" (by decide) (by decide) (by decide)
      (by decide) (by decide) (by decide)).2.2.2.1,
   (getDateFilterParams_amended 0 "fortnight" (by decide) (by decide) (by decide)
      (by decide) (by decide) (by decide)).2.2.2.2.2.2.2.2⟩

/-- Claim C8, counterexample: a supplied empty-string language and region
are not passed through unchanged — both fall back to the defaults `en` and
`us`, which differ from the supplied value. -/
theorem getLocalizationParams_empty_not_passthrough :
    getLocalizationParams (some "") (some "") = { gl := "us", hl := "en" } ∧
    ("en" : String) ≠ "" ∧ ("us" : String) ≠ "" :=
  ⟨rfl, by decide, by decide⟩

/-- Claim C8, amended: region defaults to `us` and language to `en` when
the argument is absent OR the empty string; every supplied non-empty
string is passed through unchanged with no validation against a locale
list. -/
theorem getLocalizationParams_amended (l r : Option String) (s : String) (h : s ≠ "") :
    (getLocalizationParams none r).hl = "en" ∧
    (getLocalizationParams l none).gl = "us" ∧
    (getLocalizationParams (some s) r).hl = s ∧
    (getLocalizationParams l (some s)).gl = s ∧
    (getLocalizationParams (some "") r).hl = "en" ∧
    (getLocalizationParams l (some "")).gl = "us" := by
  refine ⟨rfl, rfl, ?_, ?_, rfl, rfl⟩ <;> simp [getLocalizationParams, jsOr, h]

/-- Claim C8, witness: the amended theorem applied to the non-empty
supplied codes `fr` and `de`. -/
theorem getLocalizationParams_amended_witness :
    (getLocalizationParams (some "fr") none).hl = "fr" ∧
    (getLocalizationParams none (some "de")).gl = "de" :=
  ⟨(getLocalizationParams_amended none none "fr" (by decide)).2.2.1,
   (getLocalizationParams_amended none none "de" (by decide)).2.2.2.1⟩

/-- Claim C9: query compilation and date-range mapping are deterministic
pure functions — compiling the same constraints twice yields identical
CompiledQuery values, and the date-range mapping yields the same parameter
set at any two clock readings (the clock value the source reads is dead). -/
theorem core_determinism :
    (∀ p : AdvancedSearchQuery, buildAdvancedQuery p = buildAdvancedQuery p) ∧
    (∀ t1 t2 : Int, ∀ dr : Option String, getDateFilterParams t1 dr = getDateFilterParams t2 dr) :=
  ⟨fun _ => rfl, fun _ _ _ => rfl⟩

/-- Claim C10: an empty-string language and region are treated exactly like
absent ones — the defaults `us` and `en` are applied to every falsy value. -/
theorem getLocalizationParams_empty_as_absent :
    getLocalizationParams (some "") (some "") = getLocalizationParams none none ∧
    getLocalizationParams (some "") (some "") = { gl := "us", hl := "en" } :=
  ⟨rfl, rfl⟩

end DomainSearch
